import Mathlib

/-!
Verification of the quantitative-metrics calculator (quantcalculator.py).

The embedding models Python values that can reach the public functions:
booleans, ints, finite floats (as exact rationals), the non-finite floats
NaN and ±Infinity, and a non-numeric object (a string).  An argument that
need not be a list is a `PyVal`; an argument position that the code checks
with `isinstance(..., list)` is a `PySeqArg`.  Python exceptions become the
`Err` type carried in `Except`; float arithmetic is modelled exactly over ℚ
and `math.sqrt` as `Real.sqrt`.
-/

/-- A Python value as the calculator's validation sees it: `bool` and `int`
are instances of `int`, a float is finite (a rational) or NaN or ±Infinity,
and anything else (modelled by a string) is non-numeric. -/
inductive PyVal where
  | vbool (b : Bool)
  | vint (n : ℤ)
  | vfloat (q : ℚ)
  | vnan
  | vinf (pos : Bool)
  | vstr (s : String)
deriving DecidableEq

/-- Python `isinstance(v, (int, float))`: true for bool (a subclass of int),
int and every float, NaN and the infinities included. -/
def PyVal.isNumeric : PyVal → Bool
  | vstr _ => false
  | _ => true

/-- Python `math.isnan(v)` on a value that passed the numeric check. -/
def PyVal.isNan : PyVal → Bool
  | vnan => true
  | _ => false

/-- Python `math.isinf(v)` on a value that passed the numeric check. -/
def PyVal.isInf : PyVal → Bool
  | vinf _ => true
  | _ => false

/-- Python `isinstance(v, int)`: true for bool and int, false for floats. -/
def PyVal.isInstInt : PyVal → Bool
  | vbool _ => true
  | vint _ => true
  | _ => false

/-- The exact numeric value of a finite numeric `PyVal` (True is 1, False
is 0); junk value 0 elsewhere, always guarded by the validation. -/
def PyVal.toRat : PyVal → ℚ
  | vbool b => if b then 1 else 0
  | vint n => (n : ℚ)
  | vfloat q => q
  | _ => 0

/-- The integer value of a `PyVal` that is an instance of `int`. -/
def PyVal.toInt : PyVal → ℤ
  | vbool b => if b then 1 else 0
  | vint n => n
  | _ => 0

/-- A value passes the per-element check: numeric, and neither NaN nor
infinite. -/
def PyVal.isAcceptable (v : PyVal) : Bool :=
  v.isNumeric && !v.isNan && !v.isInf

/-- An argument the code checks with `isinstance(..., list)`: either a list
of Python values or some other object. -/
inductive PySeqArg where
  | pylist (xs : List PyVal)
  | nonList (v : PyVal)
deriving DecidableEq

/-- The elements of a list argument ([] for a non-list, always guarded by
the validation). -/
def seqVals : PySeqArg → List PyVal
  | .pylist xs => xs
  | .nonList _ => []

/-- A raised Python exception: its class and its message. -/
inductive Err where
  | typeError (msg : String)
  | valueError (msg : String)
deriving DecidableEq

/-- Whether an error is a `TypeError`. -/
def Err.isType : Err → Bool
  | typeError _ => true
  | valueError _ => false

/-- The per-element loop shared by `validate_prices` and the inline checks
of `volatility` / `sharpe_ratio`: walking the list from index `i`, raise
`TypeError` at the first non-numeric element, `ValueError` at the first
NaN/Infinity, with the index in the message (`label` is "Price" or
"Return"). -/
def checkElems (label : String) : List PyVal → ℕ → Except Err Unit
  | [], _ => Except.ok ()
  | v :: rest, i =>
    if v.isNumeric = false then
      Except.error (Err.typeError s!"{label} at index {i} is not numeric")
    else if v.isNan || v.isInf then
      Except.error (Err.valueError s!"{label} at index {i} is invalid")
    else checkElems label rest (i + 1)

/-- quantcalculator.validate_prices: not a list → `TypeError`; empty →
`ValueError`; then the element loop. -/
def validate_prices : PySeqArg → Except Err Unit
  | PySeqArg.nonList _ => Except.error (Err.typeError "Prices must be a list")
  | PySeqArg.pylist prices =>
    if prices.length = 0 then Except.error (Err.valueError "Prices list cannot be empty")
    else checkElems "Price" prices 0

/-- quantcalculator.validate_window_size: not an instance of `int` →
`TypeError`; `window_size <= 0` → `ValueError`; `window_size > data_length`
→ `ValueError`. -/
def validate_window_size (window_size : PyVal) (data_length : ℕ) : Except Err Unit :=
  if window_size.isInstInt = false then
    Except.error (Err.typeError "Window size must be an integer")
  else if window_size.toInt ≤ 0 then
    Except.error (Err.valueError "Window size must be positive")
  else if (data_length : ℤ) < window_size.toInt then
    Except.error (Err.valueError "Window size cannot be larger than data length")
  else Except.ok ()

/-- Python `round(q, 6)`: round half to even at the sixth decimal,
modelled exactly on the rational value. -/
def roundHalfEven (q : ℚ) : ℤ :=
  if q - ⌊q⌋ < 1 / 2 then ⌊q⌋
  else if 1 / 2 < q - ⌊q⌋ then ⌊q⌋ + 1
  else if ⌊q⌋ % 2 = 0 then ⌊q⌋ else ⌊q⌋ + 1

/-- Rounding a rational to 6 decimal places. -/
def round6 (q : ℚ) : ℚ := (roundHalfEven (q * 1000000) : ℚ) / 1000000

/-- quantcalculator.simple_moving_average: validate the prices and the
window size, keep the (dead) `len(prices) < window_size` branch, then for
each start index the mean of the window, rounded to 6 decimals. -/
def simple_moving_average (prices : PySeqArg) (window_size : PyVal) : Except Err (List ℚ) :=
  match validate_prices prices with
  | Except.error e => Except.error e
  | Except.ok _ =>
    match validate_window_size window_size (seqVals prices).length with
    | Except.error e => Except.error e
    | Except.ok _ =>
      let xs := (seqVals prices).map PyVal.toRat
      let w := window_size.toInt.toNat
      if xs.length < w then Except.ok []
      else Except.ok ((List.range (xs.length - w + 1)).map (fun i =>
        round6 (((xs.drop i).take w).sum / (w : ℚ))))

/-- The loop of quantcalculator.calculate_returns: over consecutive pairs,
raise `ValueError` the moment the previous price is zero, else append the
relative change. -/
def retLoop : List ℚ → Except Err (List ℚ)
  | p0 :: p1 :: rest =>
    if p0 = 0 then
      Except.error (Err.valueError "Cannot calculate return when previous price is zero")
    else
      match retLoop (p1 :: rest) with
      | Except.error e => Except.error e
      | Except.ok tail => Except.ok ((p1 - p0) / p0 :: tail)
  | _ => Except.ok []

/-- quantcalculator.calculate_returns: validate, return `[]` when fewer
than 2 prices, else the pairwise loop. -/
def calculate_returns (prices : PySeqArg) : Except Err (List ℚ) :=
  match validate_prices prices with
  | Except.error e => Except.error e
  | Except.ok _ =>
    let xs := (seqVals prices).map PyVal.toRat
    if xs.length < 2 then Except.ok []
    else retLoop xs

/-- The mean `sum(returns) / len(returns)` of quantcalculator. -/
def meanOf (xs : List ℚ) : ℚ := xs.sum / (xs.length : ℚ)

/-- The sample variance of quantcalculator.volatility: squared deviations
from the mean, summed, divided by `n - 1` (Bessel's correction). -/
def varianceOf (xs : List ℚ) : ℚ :=
  ((xs.map (fun r => (r - meanOf xs) ^ 2)).sum) / ((xs.length : ℚ) - 1)

/-- The inline validation of quantcalculator.volatility (and, interleaved
with the rate checks, of sharpe_ratio): list check, empty check, element
loop, with "Return" in the messages. -/
def validateReturnsSeq : PySeqArg → Except Err Unit
  | PySeqArg.nonList _ => Except.error (Err.typeError "Returns must be a list")
  | PySeqArg.pylist rs =>
    if rs.length = 0 then Except.error (Err.valueError "Returns list cannot be empty")
    else checkElems "Return" rs 0

/-- quantcalculator.volatility: validate inline, `0.0` for a single
return, else `math.sqrt` of the Bessel-corrected sample variance. -/
noncomputable def volatility (returns : PySeqArg) : Except Err ℝ :=
  match validateReturnsSeq returns with
  | Except.error e => Except.error e
  | Except.ok _ =>
    let xs := (seqVals returns).map PyVal.toRat
    if xs.length = 1 then Except.ok 0
    else Except.ok (Real.sqrt ((varianceOf xs : ℚ) : ℝ))

/-- The value of quantcalculator.sharpe_ratio: finite, or a signed
infinity (`math.copysign(float('inf'), excess_return)`). -/
inductive RFloat where
  | finite (x : ℝ)
  | posInf
  | negInf

/-- quantcalculator.sharpe_ratio: the checks in source order (list, rate
numeric, empty, rate finite, elements), then mean, excess return over the
risk-free rate, volatility, and the zero-volatility decision table. -/
noncomputable def sharpe_ratio (returns : PySeqArg) (risk_free_rate : PyVal) : Except Err RFloat :=
  match returns with
  | PySeqArg.nonList _ => Except.error (Err.typeError "Returns must be a list")
  | PySeqArg.pylist rs =>
    if risk_free_rate.isNumeric = false then
      Except.error (Err.typeError "Risk-free rate must be numeric")
    else if rs.length = 0 then
      Except.error (Err.valueError "Returns list cannot be empty")
    else if risk_free_rate.isNan || risk_free_rate.isInf then
      Except.error (Err.valueError "Risk-free rate is invalid")
    else
      match checkElems "Return" rs 0 with
      | Except.error e => Except.error e
      | Except.ok _ =>
        let xs := rs.map PyVal.toRat
        let excess : ℚ := meanOf xs - risk_free_rate.toRat
        match volatility (PySeqArg.pylist rs) with
        | Except.error e => Except.error e
        | Except.ok vol =>
          if vol = 0 then
            if excess = 0 then Except.ok (RFloat.finite 0)
            else if 0 < excess then Except.ok RFloat.posInf
            else Except.ok RFloat.negInf
          else Except.ok (RFloat.finite ((excess : ℚ) / vol))

/-- A price or return series of finite floats, as a `PySeqArg`. -/
def floatList (xs : List ℚ) : PySeqArg := PySeqArg.pylist (xs.map PyVal.vfloat)

instance {ε α : Type _} [DecidableEq ε] [DecidableEq α] : DecidableEq (Except ε α) := fun a b => by
  cases a <;> cases b
  case error.error e f => exact decidable_of_iff (e = f) (by simp)
  case ok.ok x y => exact decidable_of_iff (x = y) (by simp)
  all_goals exact Decidable.isFalse (by simp)

/-- Sanity check against the spec's worked example:
calculateReturns([100, 102, 101]) = [0.02, -1/102]. -/
lemma calculate_returns_example : calculate_returns (floatList [100, 102, 101]) =
    Except.ok [1 / 50, -(1 / 102)] := by
  simp only [calculate_returns, validate_prices, floatList, checkElems, retLoop, seqVals,
    PyVal.isNumeric, PyVal.isNan, PyVal.isInf, PyVal.toRat]
  norm_num

/-- Sanity check against the spec's worked example: the first two windows
of simpleMovingAverage([100, 102, 101, 103, ...], 3). -/
lemma simple_moving_average_example :
    simple_moving_average (floatList [100, 102, 101, 103]) (PyVal.vint 3) =
    Except.ok [101, 102] := by
  simp only [simple_moving_average, validate_prices, validate_window_size, floatList, checkElems,
    seqVals, PyVal.isNumeric, PyVal.isNan, PyVal.isInf, PyVal.toRat, PyVal.isInstInt, PyVal.toInt]
  simp only [show Int.toNat 3 = 3 from rfl]
  norm_num [List.range_succ, round6, roundHalfEven, PyVal.toRat]

/-! Helper lemmas about the element checks and the embedding of float
lists. -/

lemma checkElems_ok (label : String) (vs : List PyVal)
    (h : ∀ v ∈ vs, v.isAcceptable = true) : ∀ i, checkElems label vs i = Except.ok () := by
  induction vs with
  | nil => intro i; rfl
  | cons v rest ih =>
    intro i
    have hv := h v (List.mem_cons_self v rest)
    simp only [PyVal.isAcceptable, Bool.and_eq_true, Bool.not_eq_true'] at hv
    simp only [checkElems, hv.1.1, hv.1.2, hv.2]
    simpa using ih (fun u hu => h u (List.mem_cons_of_mem v hu)) (i + 1)

lemma checkElems_err_type (label : String) (vs : List PyVal) :
    ∀ (j i : ℕ), j < vs.length →
    (∀ k, k < j → ((vs.getD k PyVal.vnan).isAcceptable = true)) →
    (vs.getD j PyVal.vnan).isNumeric = false →
    checkElems label vs i = Except.error (Err.typeError s!"{label} at index {i + j} is not numeric") := by
  induction vs with
  | nil => intro j i hj _ _; simp at hj
  | cons v rest ih =>
    intro j i hj hpre hbad
    match j with
    | 0 =>
      simp only [List.getD_cons_zero] at hbad
      simp [checkElems, hbad]
    | j' + 1 =>
      have hv := hpre 0 (Nat.succ_pos j')
      simp only [List.getD_cons_zero, PyVal.isAcceptable, Bool.and_eq_true,
        Bool.not_eq_true'] at hv
      simp only [checkElems, hv.1.1, hv.1.2, hv.2, Bool.or_self, if_neg, ite_false]
      have := ih j' (i + 1) (by simpa using Nat.lt_of_succ_lt_succ hj)
        (fun k hk => by simpa using hpre (k + 1) (Nat.succ_lt_succ hk))
        (by simpa using hbad)
      rw [show i + 1 + j' = i + (j' + 1) by omega] at this
      simpa using this

lemma checkElems_err_val (label : String) (vs : List PyVal) :
    ∀ (j i : ℕ), j < vs.length →
    (∀ k, k < j → ((vs.getD k PyVal.vnan).isAcceptable = true)) →
    (vs.getD j PyVal.vnan).isNumeric = true →
    ((vs.getD j PyVal.vnan).isNan || (vs.getD j PyVal.vnan).isInf) = true →
    checkElems label vs i = Except.error (Err.valueError s!"{label} at index {i + j} is invalid") := by
  induction vs with
  | nil => intro j i hj _ _ _; simp at hj
  | cons v rest ih =>
    intro j i hj hpre hnum hbad
    match j with
    | 0 =>
      simp only [List.getD_cons_zero] at hnum hbad
      simp [checkElems, hnum, hbad]
    | j' + 1 =>
      have hv := hpre 0 (Nat.succ_pos j')
      simp only [List.getD_cons_zero, PyVal.isAcceptable, Bool.and_eq_true,
        Bool.not_eq_true'] at hv
      simp only [checkElems, hv.1.1, hv.1.2, hv.2, Bool.or_self, if_neg, ite_false]
      have := ih j' (i + 1) (by simpa using Nat.lt_of_succ_lt_succ hj)
        (fun k hk => by simpa using hpre (k + 1) (Nat.succ_lt_succ hk))
        (by simpa using hnum) (by simpa using hbad)
      rw [show i + 1 + j' = i + (j' + 1) by omega] at this
      simpa using this

lemma map_toRat_vfloat (xs : List ℚ) : (xs.map PyVal.vfloat).map PyVal.toRat = xs := by
  induction xs with
  | nil => rfl
  | cons a t ih => simp [PyVal.toRat, ih]

lemma vfloat_acceptable (xs : List ℚ) :
    ∀ v ∈ xs.map PyVal.vfloat, v.isAcceptable = true := by
  intro v hv
  obtain ⟨q, _, rfl⟩ := List.mem_map.mp hv
  rfl

lemma validate_prices_float (xs : List ℚ) (h : xs ≠ []) :
    validate_prices (floatList xs) = Except.ok () := by
  simp only [floatList, validate_prices]
  rw [if_neg (by simp [h]), checkElems_ok "Price" _ (vfloat_acceptable xs) 0]

lemma validateReturnsSeq_float (xs : List ℚ) (h : xs ≠ []) :
    validateReturnsSeq (floatList xs) = Except.ok () := by
  simp only [floatList, validateReturnsSeq]
  rw [if_neg (by simp [h]), checkElems_ok "Return" _ (vfloat_acceptable xs) 0]

lemma volatility_float (xs : List ℚ) (h : xs ≠ []) :
    volatility (floatList xs) =
      Except.ok (if xs.length = 1 then (0 : ℝ) else Real.sqrt ((varianceOf xs : ℚ) : ℝ)) := by
  unfold volatility
  rw [validateReturnsSeq_float xs h]
  simp only [floatList, seqVals, map_toRat_vfloat]
  by_cases hl : xs.length = 1 <;> simp [hl]

lemma varianceOf_nonneg (xs : List ℚ) (h2 : 2 ≤ xs.length) : 0 ≤ varianceOf xs := by
  unfold varianceOf
  apply div_nonneg
  · apply List.sum_nonneg
    intro a ha
    obtain ⟨q, _, rfl⟩ := List.mem_map.mp ha
    positivity
  · have : (2 : ℚ) ≤ (xs.length : ℚ) := by exact_mod_cast h2
    linarith

lemma sharpe_float (xs : List ℚ) (r : ℚ) (h : xs ≠ []) (v : ℝ)
    (hvol : volatility (floatList xs) = Except.ok v) :
    sharpe_ratio (floatList xs) (PyVal.vfloat r) =
      (if v = 0 then
        (if meanOf xs - r = 0 then Except.ok (RFloat.finite 0)
         else if 0 < meanOf xs - r then Except.ok RFloat.posInf
         else Except.ok RFloat.negInf)
       else Except.ok (RFloat.finite (((meanOf xs - r : ℚ) : ℝ) / v))) := by
  simp only [floatList] at hvol ⊢
  simp only [sharpe_ratio]
  rw [if_neg (by simp [PyVal.isNumeric]), if_neg (by simp [h]),
    if_neg (by simp [PyVal.isNan, PyVal.isInf]),
    checkElems_ok "Return" _ (vfloat_acceptable xs) 0, hvol]
  simp only [map_toRat_vfloat, PyVal.toRat]

/-- C1: for every valid (non-empty, finite) returns list and finite numeric
risk-free rate, sharpe_ratio follows the zero-volatility decision table:
volatility 0 and zero excess return give 0.0; volatility 0 and nonzero
excess give the infinity of the excess return's sign; otherwise the result
is the excess return divided by the volatility. -/
theorem sharpe_ratio_decision_table (xs : List ℚ) (r : ℚ) (h : xs ≠ []) :
    ∃ v : ℝ, volatility (floatList xs) = Except.ok v ∧
      (v = 0 → meanOf xs - r = 0 →
        sharpe_ratio (floatList xs) (PyVal.vfloat r) = Except.ok (RFloat.finite 0)) ∧
      (v = 0 → 0 < meanOf xs - r →
        sharpe_ratio (floatList xs) (PyVal.vfloat r) = Except.ok RFloat.posInf) ∧
      (v = 0 → meanOf xs - r < 0 →
        sharpe_ratio (floatList xs) (PyVal.vfloat r) = Except.ok RFloat.negInf) ∧
      (v ≠ 0 →
        sharpe_ratio (floatList xs) (PyVal.vfloat r) = Except.ok
          (RFloat.finite (((meanOf xs - r : ℚ) : ℝ) / v))) := by
  refine ⟨_, volatility_float xs h, ?_, ?_, ?_, ?_⟩
  · intro hv h0
    rw [sharpe_float xs r h _ (volatility_float xs h), if_pos hv, if_pos h0]
  · intro hv hpos
    rw [sharpe_float xs r h _ (volatility_float xs h), if_pos hv,
      if_neg (ne_of_gt hpos), if_pos hpos]
  · intro hv hneg
    rw [sharpe_float xs r h _ (volatility_float xs h), if_pos hv,
      if_neg (ne_of_lt hneg), if_neg (not_lt.mpr (le_of_lt hneg))]
  · intro hv
    rw [sharpe_float xs r h _ (volatility_float xs h), if_neg hv]

theorem sharpe_ratio_decision_table_witness :
    sharpe_ratio (floatList [1 / 100, 1 / 100, 1 / 100]) (PyVal.vfloat (1 / 100)) =
      Except.ok (RFloat.finite 0) := by
  obtain ⟨v, hvol, h00, _, _, _⟩ :=
    sharpe_ratio_decision_table [1 / 100, 1 / 100, 1 / 100] (1 / 100) (by simp)
  have hv : v = 0 := by
    rw [volatility_float _ (by simp)] at hvol
    have hvar : varianceOf [1 / 100, 1 / 100, 1 / 100] = 0 := by
      norm_num [varianceOf, meanOf]
    rw [hvar] at hvol
    simp at hvol
    exact hvol.symm
  exact h00 hv (by norm_num [meanOf])

/-- C3: on a valid returns list, volatility returns 0.0 for a single
element, and otherwise a non-negative value whose square is the sample
variance with Bessel's correction (sum of squared deviations from the mean
over n - 1). -/
theorem volatility_bessel (xs : List ℚ) (h : xs ≠ []) :
    ∃ v : ℝ, volatility (floatList xs) = Except.ok v ∧ 0 ≤ v ∧
      (xs.length = 1 → v = 0) ∧
      (xs.length ≠ 1 →
        v ^ 2 = (((xs.map (fun r => (r - xs.sum / (xs.length : ℚ)) ^ 2)).sum /
          ((xs.length : ℚ) - 1) : ℚ) : ℝ)) := by
  refine ⟨_, volatility_float xs h, ?_, ?_, ?_⟩
  · split
    · exact le_refl 0
    · exact Real.sqrt_nonneg _
  · intro h1; simp [h1]
  · intro h1
    have h2 : 2 ≤ xs.length := by
      have := List.length_pos.mpr h
      omega
    rw [if_neg h1, Real.sq_sqrt (by exact_mod_cast varianceOf_nonneg xs h2)]
    have : varianceOf xs =
        (xs.map (fun r => (r - xs.sum / (xs.length : ℚ)) ^ 2)).sum / ((xs.length : ℚ) - 1) := by
      simp [varianceOf, meanOf]
    exact_mod_cast congrArg (fun q : ℚ => (q : ℝ)) this

theorem volatility_bessel_witness : volatility (floatList [2]) = Except.ok 0 := by
  obtain ⟨v, hv, _, h1, _⟩ := volatility_bessel [2] (by simp)
  rw [h1 rfl] at hv
  exact hv

lemma getD_map_range (f : ℕ → ℚ) (k i : ℕ) (h : i < k) :
    ((List.range k).map f).getD i 0 = f i := by
  rw [List.getD_eq_getElem _ _ (by simp [h])]
  simp

/-- C2: for every valid non-empty price list and window size w with
1 ≤ w ≤ n, simple_moving_average returns n - w + 1 values, the value at
start index i being the arithmetic mean of the slice of length w starting
at i, rounded to 6 decimal places. -/
theorem simple_moving_average_windows (xs : List ℚ) (w : ℕ)
    (hw1 : 1 ≤ w) (hw2 : w ≤ xs.length) :
    ∃ out : List ℚ, simple_moving_average (floatList xs) (PyVal.vint (w : ℤ)) = Except.ok out ∧
      out.length = xs.length - w + 1 ∧
      ∀ i : ℕ, i < out.length →
        out.getD i 0 = round6 (((xs.drop i).take w).sum / (((xs.drop i).take w).length : ℚ)) := by
  have hne : xs ≠ [] := by
    intro e
    subst e
    simp at hw2
    omega
  have hvw : validate_window_size (PyVal.vint (w : ℤ)) (xs.map PyVal.vfloat).length =
      Except.ok () := by
    simp only [validate_window_size, PyVal.isInstInt, PyVal.toInt, List.length_map]
    rw [if_neg (by simp), if_neg (by omega), if_neg (by omega)]
  unfold simple_moving_average
  rw [validate_prices_float xs hne]
  simp only [floatList, seqVals]
  rw [hvw]
  simp only [map_toRat_vfloat, PyVal.toInt, Int.toNat_natCast]
  rw [if_neg (not_lt.mpr hw2)]
  refine ⟨_, rfl, by simp, ?_⟩
  intro i hi
  simp only [List.length_map, List.length_range] at hi
  rw [getD_map_range _ _ _ hi]
  have hlen : ((xs.drop i).take w).length = w := by
    simp only [List.length_take, List.length_drop]
    omega
  rw [hlen]

theorem simple_moving_average_windows_witness :
    ∃ out : List ℚ, simple_moving_average (floatList [3, 5]) (PyVal.vint ((2 : ℕ) : ℤ)) =
      Except.ok out ∧ out.length = 1 := by
  obtain ⟨out, h1, h2, -⟩ := simple_moving_average_windows [3, 5] 2 (by norm_num) (by norm_num)
  exact ⟨out, h1, by simpa using h2⟩

lemma retLoop_ok (xs : List ℚ) (hz : ∀ i : ℕ, i + 1 < xs.length → xs.getD i 0 ≠ 0) :
    retLoop xs = Except.ok (List.zipWith (fun p q => (q - p) / p) xs xs.tail) := by
  induction xs with
  | nil => rfl
  | cons a t ih =>
    cases t with
    | nil => rfl
    | cons b rest =>
      have ha : a ≠ 0 := by simpa using hz 0 (by simp)
      have ih' := ih (fun i hi => by
        simpa using hz (i + 1) (by simpa using Nat.succ_lt_succ hi))
      simp only [retLoop, if_neg ha, ih', List.tail_cons, List.zipWith_cons_cons]

lemma retLoop_err (xs : List ℚ) :
    ∀ i : ℕ, i + 1 < xs.length → xs.getD i 0 = 0 →
    retLoop xs = Except.error (Err.valueError "Cannot calculate return when previous price is zero") := by
  induction xs with
  | nil => intro i hi _; simp at hi
  | cons a t ih =>
    intro i hi hz
    cases t with
    | nil => simp at hi
    | cons b rest =>
      match i with
      | 0 =>
        simp only [List.getD_cons_zero] at hz
        simp [retLoop, hz]
      | i' + 1 =>
        by_cases ha : a = 0
        · simp [retLoop, ha]
        · have hrec := ih i' (by simpa using Nat.lt_of_succ_lt_succ hi) (by simpa using hz)
          simp only [retLoop, if_neg ha, hrec]

/-- C4: on a valid price list with no zero among the previous prices,
calculate_returns returns [] when there are fewer than 2 prices, and
otherwise a list of length n - 1 whose element at position i is
(prices[i+1] - prices[i]) / prices[i], unrounded. -/
theorem calculate_returns_pairwise (xs : List ℚ) (h : xs ≠ [])
    (hz : ∀ i : ℕ, i + 1 < xs.length → xs.getD i 0 ≠ 0) :
    (xs.length < 2 → calculate_returns (floatList xs) = Except.ok []) ∧
    ∃ out : List ℚ, calculate_returns (floatList xs) = Except.ok out ∧
      out.length = xs.length - 1 ∧
      ∀ i : ℕ, i < out.length →
        out.getD i 0 = (xs.getD (i + 1) 0 - xs.getD i 0) / xs.getD i 0 := by
  have hcr : calculate_returns (floatList xs) =
      (if xs.length < 2 then Except.ok [] else retLoop xs) := by
    unfold calculate_returns
    rw [validate_prices_float xs h]
    simp only [floatList, seqVals, map_toRat_vfloat]
  constructor
  · intro hlt
    rw [hcr, if_pos hlt]
  · by_cases hlt : xs.length < 2
    · have hpos := List.length_pos.mpr h
      refine ⟨[], by rw [hcr, if_pos hlt], by simp; omega, by simp⟩
    · rw [hcr, if_neg hlt, retLoop_ok xs hz]
      refine ⟨_, rfl, ?_, ?_⟩
      · rw [List.length_zipWith, List.length_tail]
        omega
      · intro i hi
        rw [List.length_zipWith, List.length_tail] at hi
        have hiz : i < (List.zipWith (fun p q => (q - p) / p) xs xs.tail).length := by
          rw [List.length_zipWith, List.length_tail]
          omega
        have hix : i < xs.length := by omega
        have hix1 : i + 1 < xs.length := by omega
        rw [List.getD_eq_getElem _ _ hiz, List.getElem_zipWith, List.getElem_tail,
          List.getD_eq_getElem _ _ hix1, List.getD_eq_getElem _ _ hix]

theorem calculate_returns_pairwise_witness :
    ∃ out : List ℚ, calculate_returns (floatList [1, 2]) = Except.ok out ∧
      out.length = 1 := by
  obtain ⟨-, out, h1, h2, -⟩ := calculate_returns_pairwise [1, 2] (by simp)
    (by
      intro i hi
      have h0 : i = 0 := by simp at hi; omega
      subst h0
      norm_num)
  exact ⟨out, h1, by simpa using h2⟩

/-- C7: a valid price list of length at least 2 with a zero price in a
previous-price position makes calculate_returns fail with the
zero-divisor ValueError, producing no result. -/
theorem calculate_returns_zero_divisor (xs : List ℚ) (i : ℕ)
    (hi : i + 1 < xs.length) (hz : xs.getD i 0 = 0) :
    calculate_returns (floatList xs) =
      Except.error (Err.valueError "Cannot calculate return when previous price is zero") := by
  have h : xs ≠ [] := by
    intro e
    subst e
    simp at hi
  unfold calculate_returns
  rw [validate_prices_float xs h]
  simp only [floatList, seqVals, map_toRat_vfloat]
  rw [if_neg (by omega), retLoop_err xs i hi hz]

theorem calculate_returns_zero_divisor_witness :
    calculate_returns (floatList [0, 1]) =
      Except.error (Err.valueError "Cannot calculate return when previous price is zero") :=
  calculate_returns_zero_divisor [0, 1] 0 (by norm_num) (by norm_num)

/-- C10: a zero price is rejected only as a divisor: when only the last
price is zero, calculate_returns succeeds and its final return is -1. -/
theorem calculate_returns_last_zero (xs : List ℚ) (h2 : 2 ≤ xs.length)
    (hlast : xs.getLast? = some 0)
    (hz : ∀ i : ℕ, i + 1 < xs.length → xs.getD i 0 ≠ 0) :
    ∃ out : List ℚ, calculate_returns (floatList xs) = Except.ok out ∧
      out.getLast? = some (-1) := by
  obtain ⟨-, out, hout, hlen, helem⟩ := calculate_returns_pairwise xs
    (by intro e; subst e; simp at h2) hz
  refine ⟨out, hout, ?_⟩
  have hol : out.length - 1 < out.length := by omega
  rw [List.getLast?_eq_getElem?, List.getElem?_eq_getElem hol]
  have hval := helem (out.length - 1) hol
  rw [List.getD_eq_getElem _ _ hol] at hval
  rw [hval]
  have hxl : xs.length - 1 < xs.length := by omega
  have hxlast : xs.getD (xs.length - 1) 0 = 0 := by
    rw [List.getLast?_eq_getElem?, List.getElem?_eq_getElem hxl] at hlast
    rw [List.getD_eq_getElem _ _ hxl]
    simpa using hlast
  have hidx : out.length - 1 = xs.length - 2 := by omega
  have hip1 : xs.length - 2 + 1 = xs.length - 1 := by omega
  rw [hidx, hip1, hxlast]
  have hprev : xs.getD (xs.length - 2) 0 ≠ 0 := hz (xs.length - 2) (by omega)
  rw [zero_sub, neg_div, div_self hprev]

theorem calculate_returns_last_zero_witness :
    ∃ out : List ℚ, calculate_returns (floatList [1, 0]) = Except.ok out ∧
      out.getLast? = some (-1) :=
  calculate_returns_last_zero [1, 0] (by norm_num) (by norm_num)
    (by
      intro i hi
      have h0 : i = 0 := by simp at hi; omega
      subst h0
      norm_num)

/-- C5 (amended): validate_prices raises TypeError for non-lists and
ValueError for the empty list; scanning left to right, the first offending
element decides the error: an index-qualified TypeError when it is not
numeric, an index-qualified ValueError when it is numeric but NaN or
infinite; every non-empty list of finite numbers passes. -/
theorem validate_prices_checks :
    (∀ v : PyVal, validate_prices (PySeqArg.nonList v) =
      Except.error (Err.typeError "Prices must be a list")) ∧
    validate_prices (PySeqArg.pylist []) =
      Except.error (Err.valueError "Prices list cannot be empty") ∧
    (∀ vs : List PyVal, ∀ j : ℕ, j < vs.length →
      (∀ k, k < j → (vs.getD k PyVal.vnan).isAcceptable = true) →
      (vs.getD j PyVal.vnan).isNumeric = false →
      validate_prices (PySeqArg.pylist vs) =
        Except.error (Err.typeError s!"Price at index {j} is not numeric")) ∧
    (∀ vs : List PyVal, ∀ j : ℕ, j < vs.length →
      (∀ k, k < j → (vs.getD k PyVal.vnan).isAcceptable = true) →
      (vs.getD j PyVal.vnan).isNumeric = true →
      ((vs.getD j PyVal.vnan).isNan || (vs.getD j PyVal.vnan).isInf) = true →
      validate_prices (PySeqArg.pylist vs) =
        Except.error (Err.valueError s!"Price at index {j} is invalid")) ∧
    (∀ vs : List PyVal, vs ≠ [] → (∀ v ∈ vs, v.isAcceptable = true) →
      validate_prices (PySeqArg.pylist vs) = Except.ok ()) := by
  refine ⟨fun v => rfl, rfl, ?_, ?_, ?_⟩
  · intro vs j hj hpre hbad
    have hne : ¬ (vs.length = 0) := by omega
    simp only [validate_prices, if_neg hne]
    have := checkElems_err_type "Price" vs j 0 hj hpre hbad
    simpa using this
  · intro vs j hj hpre hnum hbad
    have hne : ¬ (vs.length = 0) := by omega
    simp only [validate_prices, if_neg hne]
    have := checkElems_err_val "Price" vs j 0 hj hpre hnum hbad
    simpa using this
  · intro vs hne hacc
    simp only [validate_prices]
    rw [if_neg (by simpa using hne)]
    exact checkElems_ok "Price" vs hacc 0

/-- The sequence [vstr "x", vnan] contains a NaN, yet validate_prices
raises a TypeError (for the earlier non-numeric element), never a
ValueError: the per-kind clauses of the claim do not hold unconditionally,
only for the first offending element. -/
theorem validate_prices_checks_counterexample :
    PyVal.vnan ∈ [PyVal.vstr "x", PyVal.vnan] ∧
    validate_prices (PySeqArg.pylist [PyVal.vstr "x", PyVal.vnan]) =
      Except.error (Err.typeError "Price at index 0 is not numeric") ∧
    ∀ m : String, validate_prices (PySeqArg.pylist [PyVal.vstr "x", PyVal.vnan]) ≠
      Except.error (Err.valueError m) := by
  refine ⟨by simp, rfl, ?_⟩
  intro m hcon
  rw [show validate_prices (PySeqArg.pylist [PyVal.vstr "x", PyVal.vnan]) =
    Except.error (Err.typeError "Price at index 0 is not numeric") from rfl] at hcon
  simp at hcon

/-- C6: validate_window_size raises TypeError when the window size is not
an instance of int, ValueError when it is ≤ 0 or larger than the data
length, and succeeds when 1 ≤ windowSize ≤ dataLength. -/
theorem validate_window_size_rules (ws : PyVal) (n : ℕ) :
    (ws.isInstInt = false → validate_window_size ws n =
      Except.error (Err.typeError "Window size must be an integer")) ∧
    (ws.isInstInt = true → ws.toInt ≤ 0 → validate_window_size ws n =
      Except.error (Err.valueError "Window size must be positive")) ∧
    (ws.isInstInt = true → (n : ℤ) < ws.toInt → validate_window_size ws n =
      Except.error (Err.valueError "Window size cannot be larger than data length")) ∧
    (ws.isInstInt = true → 1 ≤ ws.toInt → ws.toInt ≤ (n : ℤ) →
      validate_window_size ws n = Except.ok ()) := by
  refine ⟨?_, ?_, ?_, ?_⟩
  · intro h1
    simp [validate_window_size, h1]
  · intro h1 h2
    simp [validate_window_size, h1, h2]
  · intro h1 h2
    unfold validate_window_size
    rw [if_neg (by simp [h1]), if_neg (by omega), if_pos h2]
  · intro h1 h2 h3
    unfold validate_window_size
    rw [if_neg (by simp [h1]), if_neg (by omega), if_neg (by omega)]

theorem validate_window_size_rules_witness :
    validate_window_size (PyVal.vint 3) 2 =
      Except.error (Err.valueError "Window size cannot be larger than data length") := by
  obtain ⟨-, -, h3, -⟩ := validate_window_size_rules (PyVal.vint 3) 2
  exact h3 rfl (by norm_num [PyVal.toInt])

lemma validate_window_size_ok (ws : PyVal) (n : ℕ)
    (h : validate_window_size ws n = Except.ok ()) :
    ws.isInstInt = true ∧ 1 ≤ ws.toInt ∧ ws.toInt ≤ (n : ℤ) := by
  unfold validate_window_size at h
  split at h
  · exact absurd h (by simp)
  · split at h
    · exact absurd h (by simp)
    · split at h
      · exact absurd h (by simp)
      · rename_i h1 h2 h3
        exact ⟨by simpa using h1, by omega, by omega⟩

/-- C8: whenever both validations succeed, the window size cannot exceed
the price-list length, so the defensive empty-result branch of
simple_moving_average is dead and the result is a non-empty list. -/
theorem sma_dead_branch_unreachable (p : PySeqArg) (ws : PyVal)
    (h1 : validate_prices p = Except.ok ())
    (h2 : validate_window_size ws (seqVals p).length = Except.ok ()) :
    ¬ ((seqVals p).length < ws.toInt.toNat) ∧
    ∃ out : List ℚ, simple_moving_average p ws = Except.ok out ∧ out ≠ [] := by
  obtain ⟨hint, hpos, hle⟩ := validate_window_size_ok ws (seqVals p).length h2
  have hw : ws.toInt.toNat ≤ (seqVals p).length := by omega
  refine ⟨by omega, ?_⟩
  unfold simple_moving_average
  rw [h1, h2]
  simp only [List.length_map]
  rw [if_neg (not_lt.mpr hw)]
  refine ⟨_, rfl, ?_⟩
  intro e
  apply_fun List.length at e
  simp at e

/-- C9: booleans pass every numeric check of the public interface: True is
a valid window size (isinstance of int, value 1), so the SMA with window
True is the window-1 moving average, and True/False pass the per-element
checks of validate_prices, volatility and sharpe_ratio as the numbers
1 and 0. -/
theorem booleans_accepted (n : ℕ) (hn : 1 ≤ n) (xs : List ℚ) (hxs : xs ≠ []) :
    validate_window_size (PyVal.vbool true) n = Except.ok () ∧
    simple_moving_average (floatList xs) (PyVal.vbool true) = Except.ok (xs.map round6) ∧
    (∀ b : Bool, (PyVal.vbool b).isNumeric = true ∧ (PyVal.vbool b).isNan = false ∧
      (PyVal.vbool b).isInf = false) ∧
    validate_prices (PySeqArg.pylist [PyVal.vbool true, PyVal.vbool false]) = Except.ok () ∧
    volatility (PySeqArg.pylist [PyVal.vbool true, PyVal.vbool false]) =
      Except.ok (Real.sqrt ((1 : ℝ) / 2)) ∧
    sharpe_ratio (PySeqArg.pylist [PyVal.vbool true]) (PyVal.vbool false) =
      Except.ok RFloat.posInf := by
  have hwtrue : ∀ m : ℕ, 1 ≤ m → validate_window_size (PyVal.vbool true) m = Except.ok () := by
    intro m hm
    unfold validate_window_size
    rw [if_neg (by simp [PyVal.isInstInt]), if_neg (by simp [PyVal.toInt]),
      if_neg (by simp [PyVal.toInt]; omega)]
  have hpos := List.length_pos.mpr hxs
  refine ⟨hwtrue n hn, ?_, fun b => ⟨rfl, rfl, rfl⟩, rfl, ?_, ?_⟩
  · unfold simple_moving_average
    rw [validate_prices_float xs hxs]
    simp only [floatList, seqVals]
    rw [hwtrue (xs.map PyVal.vfloat).length (by simp only [List.length_map]; omega)]
    simp only [map_toRat_vfloat]
    simp only [show (PyVal.vbool true).toInt.toNat = 1 from rfl]
    rw [if_neg (by omega)]
    congr 1
    rw [show xs.length - 1 + 1 = xs.length by omega]
    apply List.ext_getElem
    · simp
    · intro i h1 h2
      simp only [List.getElem_map, List.getElem_range, List.length_map, List.length_range] at h1 ⊢
      rw [Nat.cast_one, div_one, List.drop_eq_getElem_cons (by simpa using h1),
        show (1 : ℕ) = 0 + 1 from rfl, List.take_succ_cons, List.take_zero, List.sum_cons,
        List.sum_nil, add_zero]
  · unfold volatility
    rw [show validateReturnsSeq (PySeqArg.pylist [PyVal.vbool true, PyVal.vbool false]) =
      Except.ok () from rfl]
    simp only [seqVals, List.map_cons, List.map_nil, PyVal.toRat, if_pos, if_neg]
    rw [if_neg (by norm_num)]
    congr 1
    norm_num [varianceOf, meanOf]
  · have hvol : volatility (PySeqArg.pylist [PyVal.vbool true]) = Except.ok 0 := by
      unfold volatility
      rw [show validateReturnsSeq (PySeqArg.pylist [PyVal.vbool true]) = Except.ok () from rfl]
      simp [seqVals, PyVal.toRat]
    simp only [sharpe_ratio]
    rw [if_neg (by simp [PyVal.isNumeric]), if_neg (by simp),
      if_neg (by simp [PyVal.isNan, PyVal.isInf]),
      show checkElems "Return" [PyVal.vbool true] 0 = Except.ok () from rfl, hvol]
    norm_num [meanOf, PyVal.toRat]

theorem booleans_accepted_witness :
    validate_window_size (PyVal.vbool true) 1 = Except.ok () ∧
    simple_moving_average (floatList [2]) (PyVal.vbool true) =
      Except.ok ([(2 : ℚ)].map round6) ∧
    (∀ b : Bool, (PyVal.vbool b).isNumeric = true ∧ (PyVal.vbool b).isNan = false ∧
      (PyVal.vbool b).isInf = false) ∧
    validate_prices (PySeqArg.pylist [PyVal.vbool true, PyVal.vbool false]) = Except.ok () ∧
    volatility (PySeqArg.pylist [PyVal.vbool true, PyVal.vbool false]) =
      Except.ok (Real.sqrt ((1 : ℝ) / 2)) ∧
    sharpe_ratio (PySeqArg.pylist [PyVal.vbool true]) (PyVal.vbool false) =
      Except.ok RFloat.posInf :=
  booleans_accepted 1 (by norm_num) [2] (by simp)

theorem sma_dead_branch_unreachable_witness :
    ¬ ((seqVals (PySeqArg.pylist [PyVal.vint 1])).length < (PyVal.vint 1).toInt.toNat) ∧
    ∃ out : List ℚ, simple_moving_average (PySeqArg.pylist [PyVal.vint 1]) (PyVal.vint 1) =
      Except.ok out ∧ out ≠ [] :=
  sma_dead_branch_unreachable (PySeqArg.pylist [PyVal.vint 1]) (PyVal.vint 1) rfl rfl
